import Mathlib

/-!
Verification of the f1nanc3 repository: a FIRE (Financial Independence,
Retire Early) projection engine and a small portfolio-analytics module.

The FIRE engine is embedded over the real numbers: monetary amounts and
rates are reals, Python's `(1 + r) ** (1/12)` is the real power
`Real.rpow`, and Python's `float('inf')` sentinel is the top element of
`WithTop ℝ`.  Python raises `ZeroDivisionError` on float division by
zero, so the one place where the source divides without a guard
(`generate_timeline`'s progress computation) is embedded with a checked
division returning `Option`.  The portfolio module involves only
rational arithmetic and is embedded over `ℚ` with association lists for
Python dicts (which preserve insertion order).
-/

namespace F1nanc3

open scoped Classical

/-- FIRE profile: the six constructor arguments of `FIRECalculator.__init__`,
stored unchanged on the instance. -/
structure FIREProfile where
  current_net_worth : ℝ
  monthly_savings : ℝ
  annual_return : ℝ
  annual_expenses : ℝ
  safe_withdrawal_rate : ℝ
  inflation_rate : ℝ

/-- Monthly compounding rate `(1 + annual_return) ** (1/12) - 1`, the local
`monthly_rate` computed in `calculate_years_to_fire` and `generate_timeline`. -/
noncomputable def monthlyRate (annual_return : ℝ) : ℝ :=
  (1 + annual_return) ^ ((1 : ℝ) / 12) - 1

/-- FIRECalculator.calculate_fire_number: `annual_expenses / safe_withdrawal_rate`. -/
noncomputable def calculate_fire_number (p : FIREProfile) : ℝ :=
  p.annual_expenses / p.safe_withdrawal_rate

/-- One iteration of the compounding recurrence
`net_worth = net_worth * (1 + monthly_rate) + monthly_savings`. -/
noncomputable def monthStep (rate savings nw : ℝ) : ℝ :=
  nw * (1 + rate) + savings

/-- The `while net_worth < fire_number and months < 12 * 100` loop of
`calculate_years_to_fire`, structured on the remaining iteration budget
(initially 1200); returns the number of iterations performed, which is the
final value of the Python `months` counter. -/
noncomputable def fireLoop (fire rate savings : ℝ) : ℕ → ℝ → ℕ
  | 0, _ => 0
  | fuel + 1, nw =>
    if nw < fire then fireLoop fire rate savings fuel (monthStep rate savings nw) + 1
    else 0

/-- FIRECalculator.calculate_years_to_fire from `src/f1nanc3/fire_calculator.py`:
returns `float('inf')` (here `⊤`) when `monthly_savings <= 0`, then `0.0` when
the target is already met, otherwise runs the bounded monthly loop and returns
`months / 12`. -/
noncomputable def calculate_years_to_fire (p : FIREProfile) : WithTop ℝ :=
  let fire := calculate_fire_number p
  if p.monthly_savings ≤ 0 then ⊤
  else if p.current_net_worth ≥ fire then ((0 : ℝ) : WithTop ℝ)
  else
    (((fireLoop fire (monthlyRate p.annual_return) p.monthly_savings
        1200 p.current_net_worth : ℕ) : ℝ) / 12 : ℝ)

/-- FIRECalculator.calculate_years_to_fire from the older copy
`src/fire_calculator.py`, which computes `monthly_rate` before the
target-already-met check; otherwise the same branch structure. -/
noncomputable def legacy_calculate_years_to_fire (p : FIREProfile) : WithTop ℝ :=
  let fire := calculate_fire_number p
  if p.monthly_savings ≤ 0 then ⊤
  else
    let rate := monthlyRate p.annual_return
    if p.current_net_worth ≥ fire then ((0 : ℝ) : WithTop ℝ)
    else
      (((fireLoop fire rate p.monthly_savings 1200 p.current_net_worth : ℕ) : ℝ) / 12 : ℝ)

/-- FIRECalculator.calculate_coast_fire: present value of the FIRE target
discounted over `target_age - current_age` whole years (Python integer ages,
integer power of the float base). -/
noncomputable def calculate_coast_fire (p : FIREProfile) (target_age current_age : ℤ) : ℝ :=
  calculate_fire_number p / (1 + p.annual_return) ^ (target_age - current_age)

/-- One entry of the `generate_timeline` dictionary: the four float fields
stored per month index. -/
structure TimelinePoint where
  net_worth : ℝ
  year : ℕ
  month : ℕ
  progress : ℝ

/-- Python float division, which raises `ZeroDivisionError` on a zero
divisor; embedded as an `Option`. -/
noncomputable def pydiv (a b : ℝ) : Option ℝ :=
  if b = 0 then none else some (a / b)

/-- The `for month in range(years * 12)` loop of `generate_timeline`,
structured on the number of remaining months; builds the insertion-ordered
(key, entry) pairs, propagating the `ZeroDivisionError` of the unguarded
progress division. -/
noncomputable def timelineGo (fire rate savings : ℝ) :
    ℕ → ℕ → ℝ → Option (List (ℕ × TimelinePoint))
  | 0, _, _ => some []
  | k + 1, month, nw =>
    let nw2 := monthStep rate savings nw
    match pydiv nw2 fire with
    | none => none
    | some q =>
      (timelineGo fire rate savings k (month + 1) nw2).map
        (fun rest => (month, ⟨nw2, month / 12, month % 12, q * 100⟩) :: rest)

/-- FIRECalculator.generate_timeline: run the monthly loop for `years * 12`
months from the profile's net worth. -/
noncomputable def generate_timeline (p : FIREProfile) (years : ℕ) :
    Option (List (ℕ × TimelinePoint)) :=
  timelineGo (calculate_fire_number p) (monthlyRate p.annual_return)
    p.monthly_savings (years * 12) 0 p.current_net_worth

/-- Same loop with the division totalized, used to describe the successful
runs of `timelineGo`. -/
noncomputable def timelinePure (fire rate savings : ℝ) :
    ℕ → ℕ → ℝ → List (ℕ × TimelinePoint)
  | 0, _, _ => []
  | k + 1, month, nw =>
    let nw2 := monthStep rate savings nw
    (month, ⟨nw2, month / 12, month % 12, nw2 / fire * 100⟩) ::
      timelinePure fire rate savings k (month + 1) nw2

/-- Progress percentage computed by `FIRECalculator.summary`:
`current / fire_number * 100 if fire_number > 0 else 0.0`. -/
noncomputable def summary_progress_percent (p : FIREProfile) : ℝ :=
  if 0 < calculate_fire_number p then
    p.current_net_worth / calculate_fire_number p * 100
  else 0

/-- InvestmentPortfolio.total_value: fold over the holdings in insertion
order, adding `quantity * price` for priced tickers and skipping the rest.
Holdings are the dict `ticker → quantity`; the price snapshot is the dict
`ticker → price`, with membership as `Option`. -/
def total_value (holdings : List (String × ℚ)) (prices : String → Option ℚ) : ℚ :=
  holdings.foldl
    (fun total h =>
      match prices h.1 with
      | some pr => total + h.2 * pr
      | none => total) 0

/-- InvestmentPortfolio.weights: empty when the total is 0, otherwise each
priced holding's value divided by the total, unpriced tickers absent. -/
def weights (holdings : List (String × ℚ)) (prices : String → Option ℚ) :
    List (String × ℚ) :=
  let total := total_value holdings prices
  if total = 0 then []
  else holdings.filterMap (fun h => (prices h.1).map (fun pr => (h.1, h.2 * pr / total)))

/-- Both copies of `calculate_years_to_fire` test the sign of
`monthly_savings` first and the target second; they differ only in where the
(unobservable) local `monthly_rate` is computed, so they agree everywhere. -/
theorem calculate_years_to_fire_eq_legacy (p : FIREProfile) :
    legacy_calculate_years_to_fire p = calculate_years_to_fire p := rfl

/-- C1: for every FIRE profile with safe_withdrawal_rate > 0,
`calculate_fire_number` returns exactly `annual_expenses / safe_withdrawal_rate`,
a pure function of the profile fields. -/
theorem fire_number_is_expenses_div_swr (p : FIREProfile)
    (h : 0 < p.safe_withdrawal_rate) :
    calculate_fire_number p = p.annual_expenses / p.safe_withdrawal_rate := rfl

/-- Witness for C1 at the README example profile: rate 0.04 is positive and the
FIRE number of 9600 annual expenses is 240000. -/
theorem fire_number_is_expenses_div_swr_witness :
    (0 : ℝ) < 0.04 ∧
      calculate_fire_number ⟨3581, 200, 0.08, 9600, 0.04, 0.03⟩ = 240000 := by
  refine ⟨by norm_num, ?_⟩
  rw [fire_number_is_expenses_div_swr ⟨3581, 200, 0.08, 9600, 0.04, 0.03⟩ (by norm_num)]
  norm_num

/-- The loop performs at most as many iterations as its remaining budget, so
the Python `months` counter never exceeds 1200. -/
theorem fireLoop_le_fuel (fire rate savings : ℝ) :
    ∀ (fuel : ℕ) (nw : ℝ), fireLoop fire rate savings fuel nw ≤ fuel := by
  intro fuel
  induction fuel with
  | zero => intro nw; simp [fireLoop]
  | succ n ih =>
    intro nw
    rw [fireLoop]
    split
    · exact Nat.succ_le_succ (ih _)
    · exact Nat.zero_le _

/-- Branch value of `calculate_years_to_fire` when savings are non-positive. -/
theorem years_branch_top (p : FIREProfile) (hs : p.monthly_savings ≤ 0) :
    calculate_years_to_fire p = ⊤ := by
  simp [calculate_years_to_fire, hs]

/-- Branch value when savings are positive and the target is already met. -/
theorem years_branch_zero (p : FIREProfile) (hs : ¬ p.monthly_savings ≤ 0)
    (hmet : p.current_net_worth ≥ calculate_fire_number p) :
    calculate_years_to_fire p = ((0 : ℝ) : WithTop ℝ) := by
  simp [calculate_years_to_fire, hs, hmet]

/-- Branch value when savings are positive and the target is not met: the
bounded loop's month count divided by 12. -/
theorem years_branch_loop (p : FIREProfile) (hs : ¬ p.monthly_savings ≤ 0)
    (hmet : ¬ p.current_net_worth ≥ calculate_fire_number p) :
    calculate_years_to_fire p =
      (((fireLoop (calculate_fire_number p) (monthlyRate p.annual_return)
          p.monthly_savings 1200 p.current_net_worth : ℕ) : ℝ) / 12 : ℝ) := by
  simp [calculate_years_to_fire, hs, hmet]

/-- Raising the monthly contribution (and pointwise the running net worth)
can only shorten the loop, as long as the growth factor `1 + rate` is
non-negative. -/
theorem fireLoop_mono_savings (fire rate : ℝ) (hrate : 0 ≤ 1 + rate)
    {s1 s2 : ℝ} (hs : s1 ≤ s2) :
    ∀ (fuel : ℕ) {nw1 nw2 : ℝ}, nw1 ≤ nw2 →
      fireLoop fire rate s2 fuel nw2 ≤ fireLoop fire rate s1 fuel nw1 := by
  intro fuel
  induction fuel with
  | zero => intro nw1 nw2 _; simp [fireLoop]
  | succ n ih =>
    intro nw1 nw2 hnw
    rw [fireLoop, fireLoop]
    by_cases h2 : nw2 < fire
    · have h1 : nw1 < fire := lt_of_le_of_lt hnw h2
      rw [if_pos h2, if_pos h1]
      have hstep : monthStep rate s1 nw1 ≤ monthStep rate s2 nw2 := by
        unfold monthStep
        have := mul_le_mul_of_nonneg_right hnw hrate
        linarith
      exact Nat.succ_le_succ (ih hstep)
    · rw [if_neg h2]
      exact Nat.zero_le _

/-- Raising the monthly rate can only shorten the loop when contributions are
non-negative and the trajectory starts non-negative. -/
theorem fireLoop_mono_rate (fire s : ℝ) (hs : 0 ≤ s) {q1 q2 : ℝ}
    (hq1 : 0 ≤ 1 + q1) (hq : q1 ≤ q2) :
    ∀ (fuel : ℕ) {nw1 nw2 : ℝ}, 0 ≤ nw1 → nw1 ≤ nw2 →
      fireLoop fire q2 s fuel nw2 ≤ fireLoop fire q1 s fuel nw1 := by
  intro fuel
  induction fuel with
  | zero => intro nw1 nw2 _ _; simp [fireLoop]
  | succ n ih =>
    intro nw1 nw2 h0 hnw
    rw [fireLoop, fireLoop]
    by_cases h2 : nw2 < fire
    · have h1 : nw1 < fire := lt_of_le_of_lt hnw h2
      rw [if_pos h2, if_pos h1]
      have hstep : monthStep q1 s nw1 ≤ monthStep q2 s nw2 := by
        unfold monthStep
        have ha : nw1 * (1 + q1) ≤ nw2 * (1 + q1) :=
          mul_le_mul_of_nonneg_right hnw hq1
        have hb : nw2 * (1 + q1) ≤ nw2 * (1 + q2) :=
          mul_le_mul_of_nonneg_left (by linarith) (le_trans h0 hnw)
        linarith
      have hstep0 : 0 ≤ monthStep q1 s nw1 := by
        unfold monthStep
        have := mul_nonneg h0 hq1
        linarith
      exact Nat.succ_le_succ (ih hstep0 hstep)
    · rw [if_neg h2]
      exact Nat.zero_le _

/-- Monthly rate conversion is monotone in the annual return above -1. -/
theorem monthlyRate_mono {r1 r2 : ℝ} (h1 : -1 < r1) (h : r1 ≤ r2) :
    monthlyRate r1 ≤ monthlyRate r2 := by
  unfold monthlyRate
  have := Real.rpow_le_rpow (by linarith : (0 : ℝ) ≤ 1 + r1)
    (by linarith : 1 + r1 ≤ 1 + r2) (by norm_num : (0 : ℝ) ≤ 1 / 12)
  linarith

/-- Growth factor `1 + monthly_rate` is non-negative for returns above -1. -/
theorem one_add_monthlyRate_nonneg {r : ℝ} (h : -1 < r) :
    0 ≤ 1 + monthlyRate r := by
  unfold monthlyRate
  have := Real.rpow_nonneg (by linarith : (0 : ℝ) ≤ 1 + r) ((1 : ℝ) / 12)
  linarith

/-- C5: holding the other profile fields fixed (valid profile: non-negative
net worth, positive expenses and withdrawal rate), `calculate_years_to_fire`
is monotonically non-increasing in `monthly_savings`, and separately in
`annual_return` over returns above -1, in the order of `WithTop ℝ` where the
infinity sentinel exceeds every finite value. -/
theorem years_to_fire_monotone (nw exp swr infl s s1 s2 r r1 r2 : ℝ)
    (hnw : 0 ≤ nw) (hexp : 0 < exp) (hswr : 0 < swr) :
    (-1 < r → s1 ≤ s2 →
      calculate_years_to_fire ⟨nw, s2, r, exp, swr, infl⟩ ≤
        calculate_years_to_fire ⟨nw, s1, r, exp, swr, infl⟩) ∧
    (-1 < r1 → r1 ≤ r2 →
      calculate_years_to_fire ⟨nw, s, r2, exp, swr, infl⟩ ≤
        calculate_years_to_fire ⟨nw, s, r1, exp, swr, infl⟩) := by
  have hfire : ∀ sv rt, calculate_fire_number ⟨nw, sv, rt, exp, swr, infl⟩ = exp / swr := by
    intro sv rt; rfl
  constructor
  · intro hr hs12
    by_cases hs1 : s1 ≤ 0
    · rw [years_branch_top ⟨nw, s1, r, exp, swr, infl⟩ hs1]
      exact le_top
    · have hs2 : ¬ s2 ≤ 0 := fun h => hs1 (le_trans hs12 h)
      by_cases hmet : nw ≥ exp / swr
      · rw [years_branch_zero ⟨nw, s2, r, exp, swr, infl⟩ hs2 (by rw [hfire]; exact hmet),
          years_branch_zero ⟨nw, s1, r, exp, swr, infl⟩ hs1 (by rw [hfire]; exact hmet)]
      · rw [years_branch_loop ⟨nw, s2, r, exp, swr, infl⟩ hs2 (by rw [hfire]; exact hmet),
          years_branch_loop ⟨nw, s1, r, exp, swr, infl⟩ hs1 (by rw [hfire]; exact hmet)]
        refine WithTop.coe_le_coe.mpr ?_
        refine (div_le_div_right (by norm_num : (0 : ℝ) < 12)).mpr ?_
        refine Nat.cast_le.mpr ?_
        simp only [hfire]
        exact fireLoop_mono_savings (exp / swr) (monthlyRate r)
          (one_add_monthlyRate_nonneg hr) hs12 1200 le_rfl
  · intro h1 hr
    by_cases hsle : s ≤ 0
    · rw [years_branch_top ⟨nw, s, r2, exp, swr, infl⟩ hsle,
        years_branch_top ⟨nw, s, r1, exp, swr, infl⟩ hsle]
    · by_cases hmet : nw ≥ exp / swr
      · rw [years_branch_zero ⟨nw, s, r2, exp, swr, infl⟩ hsle (by rw [hfire]; exact hmet),
          years_branch_zero ⟨nw, s, r1, exp, swr, infl⟩ hsle (by rw [hfire]; exact hmet)]
      · rw [years_branch_loop ⟨nw, s, r2, exp, swr, infl⟩ hsle (by rw [hfire]; exact hmet),
          years_branch_loop ⟨nw, s, r1, exp, swr, infl⟩ hsle (by rw [hfire]; exact hmet)]
        refine WithTop.coe_le_coe.mpr ?_
        refine (div_le_div_right (by norm_num : (0 : ℝ) < 12)).mpr ?_
        refine Nat.cast_le.mpr ?_
        simp only [hfire]
        exact fireLoop_mono_rate (exp / swr) s (le_of_not_le hsle)
          (one_add_monthlyRate_nonneg h1) (monthlyRate_mono h1 hr) 1200 hnw le_rfl

/-- Witness for C5 at concrete inputs: net worth 0, expenses 9600, rate 0.04,
savings pair 100 ≤ 200 and return pair 0 ≤ 0.05. -/
theorem years_to_fire_monotone_witness :
    ((-1 : ℝ) < 0 → (100 : ℝ) ≤ 200 →
      calculate_years_to_fire ⟨0, 200, 0, 9600, 0.04, 0.03⟩ ≤
        calculate_years_to_fire ⟨0, 100, 0, 9600, 0.04, 0.03⟩) ∧
    ((-1 : ℝ) < 0 → (0 : ℝ) ≤ 0.05 →
      calculate_years_to_fire ⟨0, 200, 0.05, 9600, 0.04, 0.03⟩ ≤
        calculate_years_to_fire ⟨0, 200, 0, 9600, 0.04, 0.03⟩) :=
  years_to_fire_monotone 0 9600 0.04 0.03 200 100 200 0 0 0.05
    (by norm_num) (by norm_num) (by norm_num)

/-- C2 counterexample: the profile with net worth 300000, monthly savings 0,
return 5%, expenses 9600 and rate 0.04 has its FIRE target (240000) already
met and a positive withdrawal rate, yet `calculate_years_to_fire` returns the
infinity sentinel, not 0 — the savings-sign check fires first. -/
theorem years_zero_counterexample :
    (0 : ℝ) < (⟨300000, 0, 0.05, 9600, 0.04, 0.03⟩ : FIREProfile).safe_withdrawal_rate ∧
      calculate_fire_number ⟨300000, 0, 0.05, 9600, 0.04, 0.03⟩ ≤
        (⟨300000, 0, 0.05, 9600, 0.04, 0.03⟩ : FIREProfile).current_net_worth ∧
      calculate_years_to_fire ⟨300000, 0, 0.05, 9600, 0.04, 0.03⟩ ≠ ((0 : ℝ) : WithTop ℝ) := by
  refine ⟨by norm_num, ?_, ?_⟩
  · simp only [calculate_fire_number]
    norm_num
  · simp [calculate_years_to_fire]

/-- C2 amended: if additionally `monthly_savings > 0`, then a profile whose
net worth already meets the FIRE target gets `years_to_fire = 0`. -/
theorem years_zero_when_target_met (p : FIREProfile)
    (hswr : 0 < p.safe_withdrawal_rate) (hs : 0 < p.monthly_savings)
    (hmet : calculate_fire_number p ≤ p.current_net_worth) :
    calculate_years_to_fire p = ((0 : ℝ) : WithTop ℝ) := by
  have h1 : ¬ p.monthly_savings ≤ 0 := not_le.mpr hs
  have h2 : p.current_net_worth ≥ calculate_fire_number p := hmet
  simp [calculate_years_to_fire, h1, h2]

/-- Witness for the amended C2: net worth 250000 meets the target 240000 with
positive savings, and the result is 0. -/
theorem years_zero_when_target_met_witness :
    calculate_years_to_fire ⟨250000, 200, 0.08, 9600, 0.04, 0.03⟩ = ((0 : ℝ) : WithTop ℝ) := by
  refine years_zero_when_target_met ⟨250000, 200, 0.08, 9600, 0.04, 0.03⟩
    (by norm_num) (by norm_num) ?_
  simp only [calculate_fire_number]
  norm_num

/-- C3: with non-positive monthly savings and the target not yet met,
`calculate_years_to_fire` returns the unreachable sentinel (`float('inf')`,
embedded as `⊤`), not a finite number of years. -/
theorem years_unreachable_when_no_savings (p : FIREProfile)
    (hswr : 0 < p.safe_withdrawal_rate) (hs : p.monthly_savings ≤ 0)
    (hbelow : p.current_net_worth < calculate_fire_number p) :
    calculate_years_to_fire p = ⊤ := by
  simp [calculate_years_to_fire, hs]

/-- Witness for C3: net worth 1000 is below the 240000 target and savings are
0, so the result is the sentinel. -/
theorem years_unreachable_when_no_savings_witness :
    calculate_years_to_fire ⟨1000, 0, 0.05, 9600, 0.04, 0.03⟩ = ⊤ := by
  refine years_unreachable_when_no_savings ⟨1000, 0, 0.05, 9600, 0.04, 0.03⟩
    (by norm_num) (by norm_num) ?_
  simp only [calculate_fire_number]
  norm_num

/-- C4: with positive withdrawal rate and positive savings the computation
terminates with a finite result: the loop runs some `m ≤ 1200` iterations,
the value returned is `m / 12` years, and it is at most 100 years. -/
theorem years_to_fire_bounded (p : FIREProfile)
    (hswr : 0 < p.safe_withdrawal_rate) (hs : 0 < p.monthly_savings) :
    ∃ m : ℕ, m ≤ 1200 ∧
      calculate_years_to_fire p = (((m : ℝ) / 12 : ℝ) : WithTop ℝ) ∧
      ((m : ℝ) / 12 ≤ 100) := by
  have h1 : ¬ p.monthly_savings ≤ 0 := not_le.mpr hs
  by_cases hmet : p.current_net_worth ≥ calculate_fire_number p
  · refine ⟨0, by norm_num, ?_, by norm_num⟩
    simp [calculate_years_to_fire, h1, hmet]
  · refine ⟨fireLoop (calculate_fire_number p) (monthlyRate p.annual_return)
      p.monthly_savings 1200 p.current_net_worth, fireLoop_le_fuel _ _ _ _ _, ?_, ?_⟩
    · simp [calculate_years_to_fire, h1, hmet]
    · have hb : ((fireLoop (calculate_fire_number p) (monthlyRate p.annual_return)
          p.monthly_savings 1200 p.current_net_worth : ℕ) : ℝ) ≤ 1200 := by
        exact_mod_cast fireLoop_le_fuel _ _ _ 1200 _
      linarith

/-- Witness for C4 at the README example profile, whose hypotheses (positive
rate and savings) hold. -/
theorem years_to_fire_bounded_witness :
    ∃ m : ℕ, m ≤ 1200 ∧
      calculate_years_to_fire ⟨3581, 200, 0.08, 9600, 0.04, 0.03⟩ =
        (((m : ℝ) / 12 : ℝ) : WithTop ℝ) ∧
      ((m : ℝ) / 12 ≤ 100) :=
  years_to_fire_bounded ⟨3581, 200, 0.08, 9600, 0.04, 0.03⟩ (by norm_num) (by norm_num)

/-- C7 counterexample: at annual_return = 0 (a legal return above -1) with a
positive withdrawal rate, a larger age gap does not shrink the Coast-FIRE
amount — gaps 10 and 20 both give 240000, so the amount is not monotonically
decreasing in the gap. -/
theorem coast_fire_antitone_counterexample :
    (0 : ℝ) < (⟨3581, 200, 0, 9600, 0.04, 0.03⟩ : FIREProfile).safe_withdrawal_rate ∧
      (-1 : ℝ) < (⟨3581, 200, 0, 9600, 0.04, 0.03⟩ : FIREProfile).annual_return ∧
      ((65 : ℤ) - 55 < (65 : ℤ) - 45) ∧
      ¬ calculate_coast_fire ⟨3581, 200, 0, 9600, 0.04, 0.03⟩ 65 45 <
          calculate_coast_fire ⟨3581, 200, 0, 9600, 0.04, 0.03⟩ 65 55 := by
  refine ⟨by norm_num, by norm_num, by norm_num, ?_⟩
  simp [calculate_coast_fire, calculate_fire_number]

/-- C7 amended: `calculate_coast_fire` always equals
`fire_number / (1+annual_return)^(target_age - current_age)`, and the
strict monotone decrease in the age gap holds for strictly positive
returns and positive expenses (for zero return the amount is constant in
the gap, and for negative returns it grows). -/
theorem coast_fire_formula_and_antitone (p : FIREProfile)
    (hswr : 0 < p.safe_withdrawal_rate) (hr : -1 < p.annual_return)
    (target_age current_age : ℤ) :
    calculate_coast_fire p target_age current_age =
      calculate_fire_number p / (1 + p.annual_return) ^ (target_age - current_age) ∧
    (0 < p.annual_return → 0 < p.annual_expenses →
      ∀ t1 c1 t2 c2 : ℤ, t1 - c1 < t2 - c2 →
        calculate_coast_fire p t2 c2 < calculate_coast_fire p t1 c1) := by
  refine ⟨rfl, ?_⟩
  intro hpos hexp t1 c1 t2 c2 hgap
  have hfire : 0 < calculate_fire_number p := div_pos hexp hswr
  have hbase : (1 : ℝ) < 1 + p.annual_return := by linarith
  have hbase0 : (0 : ℝ) < 1 + p.annual_return := by linarith
  have hpow : (1 + p.annual_return) ^ (t1 - c1) < (1 + p.annual_return) ^ (t2 - c2) :=
    zpow_lt_zpow_right₀ hbase hgap
  exact div_lt_div_of_pos_left hfire (zpow_pos hbase0 _) hpow

/-- Witness for the amended C7 at a 5% return: the formula holds and the gap
15 amount is below the gap 10 amount. -/
theorem coast_fire_formula_and_antitone_witness :
    (calculate_coast_fire ⟨3581, 200, 0.05, 9600, 0.04, 0.03⟩ 65 30 =
      calculate_fire_number ⟨3581, 200, 0.05, 9600, 0.04, 0.03⟩ /
        (1 + (0.05 : ℝ)) ^ ((65 : ℤ) - 30)) ∧
      calculate_coast_fire ⟨3581, 200, 0.05, 9600, 0.04, 0.03⟩ 55 40 <
        calculate_coast_fire ⟨3581, 200, 0.05, 9600, 0.04, 0.03⟩ 50 40 := by
  have h := coast_fire_formula_and_antitone ⟨3581, 200, 0.05, 9600, 0.04, 0.03⟩
    (by norm_num) (by norm_num) 65 30
  exact ⟨h.1, h.2 (by norm_num) (by norm_num) 50 40 55 40 (by norm_num)⟩

/-- C9 counterexample to the claimed disagreement: there is no profile on
which the legacy copy and the packaged copy of `calculate_years_to_fire`
return different results — both test the savings sign before the
target-already-met check. -/
theorem years_to_fire_copies_disagree_counterexample :
    ¬ ∃ p : FIREProfile,
        legacy_calculate_years_to_fire p ≠ calculate_years_to_fire p := by
  rintro ⟨p, hp⟩
  exact hp (calculate_years_to_fire_eq_legacy p)

/-- C9 amended: the two parallel implementations are extensionally equal; in
particular, on a profile with non-positive savings whose net worth already
meets the FIRE target, both return the unreachable sentinel (never 0). -/
theorem years_to_fire_copies_agree (p : FIREProfile) :
    legacy_calculate_years_to_fire p = calculate_years_to_fire p ∧
      (p.monthly_savings ≤ 0 → legacy_calculate_years_to_fire p = ⊤) := by
  refine ⟨calculate_years_to_fire_eq_legacy p, ?_⟩
  intro hs
  rw [calculate_years_to_fire_eq_legacy p]
  exact years_branch_top p hs

/-- Witness for the amended C9 at a profile with savings 0 and target met. -/
theorem years_to_fire_copies_agree_witness :
    legacy_calculate_years_to_fire ⟨300000, 0, 0.05, 9600, 0.04, 0.03⟩ =
        calculate_years_to_fire ⟨300000, 0, 0.05, 9600, 0.04, 0.03⟩ ∧
      legacy_calculate_years_to_fire ⟨300000, 0, 0.05, 9600, 0.04, 0.03⟩ = ⊤ :=
  ⟨(years_to_fire_copies_agree ⟨300000, 0, 0.05, 9600, 0.04, 0.03⟩).1,
    (years_to_fire_copies_agree ⟨300000, 0, 0.05, 9600, 0.04, 0.03⟩).2 (by norm_num)⟩

/-- When the FIRE target is non-zero the division never faults and the loop
returns the totalized list. -/
theorem timelineGo_eq_pure (fire rate savings : ℝ) (hfire : fire ≠ 0) :
    ∀ (k month : ℕ) (nw : ℝ),
      timelineGo fire rate savings k month nw =
        some (timelinePure fire rate savings k month nw) := by
  intro k
  induction k with
  | zero => intro month nw; rfl
  | succ n ih =>
    intro month nw
    rw [timelineGo, timelinePure]
    simp only [pydiv, if_neg hfire, ih]
    rfl

/-- The loop produces one entry per remaining month. -/
theorem timelinePure_length (fire rate savings : ℝ) :
    ∀ (k month : ℕ) (nw : ℝ),
      (timelinePure fire rate savings k month nw).length = k := by
  intro k
  induction k with
  | zero => intro month nw; rfl
  | succ n ih => intro month nw; rw [timelinePure]; simp [ih]

/-- The keys of the loop's entries are the consecutive month indices. -/
theorem timelinePure_keys (fire rate savings : ℝ) :
    ∀ (k month : ℕ) (nw : ℝ),
      (timelinePure fire rate savings k month nw).map Prod.fst =
        List.range' month k := by
  intro k
  induction k with
  | zero => intro month nw; rfl
  | succ n ih =>
    intro month nw
    rw [timelinePure, List.range']
    simp [ih]

/-- Entry `i` of the loop started at `month` with net worth `nw` is keyed
`month + i` and records the `(i+1)`-fold iterate of the compounding step,
its year/month decomposition, and its progress ratio. -/
theorem timelinePure_getElem (fire rate savings : ℝ) :
    ∀ (k i month : ℕ) (nw : ℝ), i < k →
      (timelinePure fire rate savings k month nw)[i]? =
        some (month + i,
          ⟨(monthStep rate savings)^[i + 1] nw, (month + i) / 12, (month + i) % 12,
            (monthStep rate savings)^[i + 1] nw / fire * 100⟩) := by
  intro k
  induction k with
  | zero => intro i month nw h; omega
  | succ n ih =>
    intro i month nw h
    match i with
    | 0 =>
      rw [timelinePure]
      simp [Function.iterate_one]
    | j + 1 =>
      rw [timelinePure]
      simp only [List.getElem?_cons_succ]
      rw [ih j (month + 1) (monthStep rate savings nw) (by omega)]
      have harith : month + 1 + j = month + (j + 1) := by omega
      have hiter : (monthStep rate savings)^[j + 1] (monthStep rate savings nw) =
          (monthStep rate savings)^[j + 1 + 1] nw :=
        (Function.iterate_succ_apply (monthStep rate savings) (j + 1) nw).symm
      rw [harith, hiter]

/-- Every entry of the loop records the year and month decomposition of its
own key. -/
theorem timelinePure_fields (fire rate savings : ℝ) :
    ∀ (k month : ℕ) (nw : ℝ),
      ∀ e ∈ timelinePure fire rate savings k month nw,
        e.2.year = e.1 / 12 ∧ e.2.month = e.1 % 12 := by
  intro k
  induction k with
  | zero => intro month nw e he; simp [timelinePure] at he
  | succ n ih =>
    intro month nw e he
    rw [timelinePure] at he
    simp only [List.mem_cons] at he
    rcases he with he | he
    · subst he; exact ⟨rfl, rfl⟩
    · exact ih _ _ e he

/-- The last entry of a non-empty loop run is keyed `month + k - 1` and
carries the `k`-fold iterate of the compounding step. -/
theorem timelinePure_getLast (fire rate savings : ℝ) (k month : ℕ) (nw : ℝ)
    (hk : 0 < k) :
    (timelinePure fire rate savings k month nw).getLast? =
      some (month + k - 1,
        ⟨(monthStep rate savings)^[k] nw, (month + k - 1) / 12, (month + k - 1) % 12,
          (monthStep rate savings)^[k] nw / fire * 100⟩) := by
  have h1 : k - 1 + 1 = k := by omega
  have h2 : month + (k - 1) = month + k - 1 := by omega
  have h := timelinePure_getElem fire rate savings k (k - 1) month nw (by omega)
  rw [h1, h2] at h
  rw [List.getLast?_eq_getElem?, timelinePure_length]
  exact h

/-- C6: with a positive withdrawal rate and positive expenses, the timeline
for a horizon of at least one year succeeds and has exactly `years * 12`
entries keyed `0 .. years*12 - 1`; entry `m` records `year = m / 12` and
`month = m % 12`, and the last entry's net worth is the `years*12`-fold
direct iteration of the compounding recurrence from the starting net worth.
The simulation always runs the full horizon. -/
theorem generate_timeline_spec (p : FIREProfile)
    (hswr : 0 < p.safe_withdrawal_rate) (hexp : 0 < p.annual_expenses)
    (years : ℕ) (hy : 1 ≤ years) :
    ∃ l : List (ℕ × TimelinePoint),
      generate_timeline p years = some l ∧
      l.length = years * 12 ∧
      l.map Prod.fst = List.range (years * 12) ∧
      (∀ e ∈ l, e.2.year = e.1 / 12 ∧ e.2.month = e.1 % 12) ∧
      ∃ e, l.getLast? = some e ∧
        e.2.net_worth =
          (monthStep (monthlyRate p.annual_return) p.monthly_savings)^[years * 12]
            p.current_net_worth := by
  have hfire : calculate_fire_number p ≠ 0 :=
    ne_of_gt (div_pos hexp hswr)
  set F := monthlyRate p.annual_return with hF
  refine ⟨timelinePure (calculate_fire_number p) F p.monthly_savings
    (years * 12) 0 p.current_net_worth, ?_, ?_, ?_, ?_, ?_⟩
  · exact timelineGo_eq_pure _ _ _ hfire _ _ _
  · exact timelinePure_length _ _ _ _ _ _
  · rw [timelinePure_keys, List.range_eq_range']
  · exact timelinePure_fields _ _ _ _ _ _
  · rw [timelinePure_getLast _ _ _ _ _ _ (by omega)]
    exact ⟨_, rfl, rfl⟩

/-- Witness for C6 at the README example profile over a one-year horizon. -/
theorem generate_timeline_spec_witness :
    ∃ l : List (ℕ × TimelinePoint),
      generate_timeline ⟨3581, 200, 0.08, 9600, 0.04, 0.03⟩ 1 = some l ∧
      l.length = 1 * 12 ∧
      l.map Prod.fst = List.range (1 * 12) ∧
      (∀ e ∈ l, e.2.year = e.1 / 12 ∧ e.2.month = e.1 % 12) ∧
      ∃ e, l.getLast? = some e ∧
        e.2.net_worth =
          (monthStep (monthlyRate (0.08 : ℝ)) (200 : ℝ))^[1 * 12] (3581 : ℝ) :=
  generate_timeline_spec ⟨3581, 200, 0.08, 9600, 0.04, 0.03⟩
    (by norm_num) (by norm_num) 1 (by norm_num)

/-- C10: a profile with zero annual expenses (allowed by the data model) and
a positive withdrawal rate has FIRE target 0, so `generate_timeline` hits the
unguarded progress division by zero on its very first month and faults for
every horizon of at least one year, while `summary`'s guarded progress
computation returns 0. -/
theorem generate_timeline_div_by_zero (p : FIREProfile)
    (hexp : p.annual_expenses = 0) (hswr : 0 < p.safe_withdrawal_rate)
    (years : ℕ) (hy : 1 ≤ years) :
    generate_timeline p years = none ∧ summary_progress_percent p = 0 := by
  have hfire : calculate_fire_number p = 0 := by
    simp [calculate_fire_number, hexp]
  constructor
  · obtain ⟨k, hk⟩ : ∃ k, years * 12 = k + 1 := ⟨years * 12 - 1, by omega⟩
    unfold generate_timeline
    rw [hfire, hk, timelineGo]
    simp [pydiv]
  · simp [summary_progress_percent, hfire]

/-- Witness for C10 at a zero-expense profile over a one-year horizon. -/
theorem generate_timeline_div_by_zero_witness :
    generate_timeline ⟨1000, 200, 0.05, 0, 0.04, 0.03⟩ 1 = none ∧
      summary_progress_percent ⟨1000, 200, 0.05, 0, 0.04, 0.03⟩ = 0 :=
  generate_timeline_div_by_zero ⟨1000, 200, 0.05, 0, 0.04, 0.03⟩
    rfl (by norm_num) 1 (by norm_num)

/-- The total-value fold, started from any accumulator, adds the sum of the
priced holdings' values. -/
theorem total_value_foldl (prices : String → Option ℚ) :
    ∀ (holdings : List (String × ℚ)) (acc : ℚ),
      holdings.foldl
          (fun total h =>
            match prices h.1 with
            | some pr => total + h.2 * pr
            | none => total) acc =
        acc + (holdings.filterMap (fun h => (prices h.1).map (fun pr => h.2 * pr))).sum := by
  intro holdings
  induction holdings with
  | nil => intro acc; simp
  | cons h t ih =>
    intro acc
    cases hp : prices h.1 with
    | none => simp [hp, ih]
    | some pr =>
      simp only [List.foldl_cons, hp, List.filterMap_cons, Option.map_some']
      rw [ih, List.sum_cons]
      ring

/-- Dividing each priced value by a common denominator divides their sum. -/
theorem weights_snd_sum (prices : String → Option ℚ) (T : ℚ) :
    ∀ holdings : List (String × ℚ),
      ((holdings.filterMap
          (fun h => (prices h.1).map (fun pr => (h.1, h.2 * pr / T)))).map Prod.snd).sum =
        (holdings.filterMap (fun h => (prices h.1).map (fun pr => h.2 * pr))).sum / T := by
  intro holdings
  induction holdings with
  | nil => simp
  | cons h t ih =>
    cases hp : prices h.1 with
    | none => simp [hp, ih]
    | some pr =>
      simp only [List.filterMap_cons, hp, Option.map_some', List.map_cons, List.sum_cons]
      rw [ih, add_div]

/-- The weight list's tickers are exactly the priced tickers of the
holdings, in order. -/
theorem weights_keys (prices : String → Option ℚ) (T : ℚ) :
    ∀ holdings : List (String × ℚ),
      ((holdings.filterMap
          (fun h => (prices h.1).map (fun pr => (h.1, h.2 * pr / T)))).map Prod.fst) =
        (holdings.filter (fun h => (prices h.1).isSome)).map Prod.fst := by
  intro holdings
  induction holdings with
  | nil => simp
  | cons h t ih =>
    cases hp : prices h.1 with
    | none => simp [hp, ih, List.filter_cons]
    | some pr => simp [hp, ih, List.filter_cons]

/-- C8: `total_value` sums `quantity * price` over exactly the holdings whose
ticker is priced, skipping the rest; `weights` is empty when that total is 0,
and otherwise maps exactly the priced tickers (unpriced tickers absent) to
value over total, so the weights sum to 1. -/
theorem portfolio_total_value_and_weights (holdings : List (String × ℚ))
    (prices : String → Option ℚ) :
    total_value holdings prices =
        (holdings.filterMap (fun h => (prices h.1).map (fun pr => h.2 * pr))).sum ∧
      (total_value holdings prices = 0 → weights holdings prices = []) ∧
      (total_value holdings prices ≠ 0 →
        (weights holdings prices).map Prod.fst =
            (holdings.filter (fun h => (prices h.1).isSome)).map Prod.fst ∧
          ((weights holdings prices).map Prod.snd).sum = 1) := by
  have h1 : total_value holdings prices =
      (holdings.filterMap (fun h => (prices h.1).map (fun pr => h.2 * pr))).sum := by
    unfold total_value
    rw [total_value_foldl]
    exact zero_add _
  refine ⟨h1, ?_, ?_⟩
  · intro h0
    simp only [weights]
    rw [if_pos h0]
  · intro hne
    constructor
    · simp only [weights]
      rw [if_neg hne]
      exact weights_keys prices (total_value holdings prices) holdings
    · simp only [weights]
      rw [if_neg hne, weights_snd_sum prices (total_value holdings prices) holdings,
        ← h1, div_self hne]

/-- Witness for C8 at the documented example: holdings TSLA 5, AAPL 10,
BTC 0.05 priced at 250, 180 and 45000 total 5300, and the weights sum to 1. -/
theorem portfolio_total_value_and_weights_witness :
    total_value [("TSLA", 5), ("AAPL", 10), ("BTC", 1 / 20)]
        (fun t => if t = "TSLA" then some 250 else if t = "AAPL" then some 180
          else if t = "BTC" then some 45000 else none) = 5300 ∧
      ((weights [("TSLA", 5), ("AAPL", 10), ("BTC", 1 / 20)]
          (fun t => if t = "TSLA" then some 250 else if t = "AAPL" then some 180
            else if t = "BTC" then some 45000 else none)).map Prod.snd).sum = 1 := by
  have h := portfolio_total_value_and_weights
    [("TSLA", 5), ("AAPL", 10), ("BTC", 1 / 20)]
    (fun t => if t = "TSLA" then some 250 else if t = "AAPL" then some 180
      else if t = "BTC" then some 45000 else none)
  have h1 : ("AAPL" : String) = "TSLA" ↔ False := by simp
  have h2 : ("BTC" : String) = "TSLA" ↔ False := by simp
  have h3 : ("BTC" : String) = "AAPL" ↔ False := by simp
  refine ⟨?_, (h.2.2 ?_).2⟩
  · rw [h.1]
    simp only [List.filterMap_cons, List.filterMap_nil, h1, h2, h3, if_false,
      Option.map_some', List.sum_cons, List.sum_nil]
    norm_num
  · rw [h.1]
    simp only [List.filterMap_cons, List.filterMap_nil, h1, h2, h3, if_false,
      Option.map_some', List.sum_cons, List.sum_nil]
    norm_num

end F1nanc3
